import Mathlib

/-!
# Shallow embedding of the `wait-for-vercel-preview` GitHub action

This file embeds the core of `action.ts` into Lean 4 and proves the behavioural
properties claimed for it.

Modelling conventions:
* JavaScript numbers are modelled by `ℚ` (exact arithmetic); `Math.floor` is `Int.floor`.
* The loop bodies `for (let i = 0; i < iterations; i++)` are modelled by structural
  recursion on the remaining number of attempts, carrying the current index `i`.
* Network collaborators (octokit, the HTTP client) are modelled as environment
  functions mapping the attempt index to the outcome that attempt observes:
  a thrown request error is `Except.error`, a delivered response is `Except.ok`.
* `core.setFailed`/returning `undefined` after budget exhaustion is modelled by
  `none` (respectively a `success := false` run result); `await wait(ms)` only
  delays and is dropped.
* The HTTP GET of the health check resolves (axios does not throw) exactly when the
  environment reports `GetOutcome.ok status`; `errStatus` is a response carrying an
  HTTP error status (axios throws with `e.response` set) and `errNoResponse` is a
  transport failure (axios throws with only `e.request` set).  The construction of
  the request URI (`new URL(path, url)`) is address formation only and is not
  observed by any property below, so the GET outcome depends on the attempt index.
-/

/-- `calculateIterations` from `action.ts`:
`(maxTimeoutSec, checkIntervalInMilliseconds) => Math.floor(maxTimeoutSec / (checkIntervalInMilliseconds / 1000))`. -/
def calculateIterations (maxTimeoutSec : ℚ) (checkIntervalInMilliseconds : ℚ) : ℤ :=
  ⌊maxTimeoutSec / (checkIntervalInMilliseconds / 1000)⌋

/-- The shared retry-loop shape of `waitForStatus` and `waitForDeploymentToStart`:
run `attempt` at successive indices, returning the first `some` result, `none`
once the budget is exhausted.  `retryLoop attempt i n` runs attempts
`i, i+1, …, i+n-1`. -/
def retryLoop {α : Type} (attempt : Nat → Option α) : Nat → Nat → Option α
  | _, 0 => none
  | i, n + 1 =>
    match attempt i with
    | some x => some x
    | none => retryLoop attempt (i + 1) n

/-- The deployment-status states of the GitHub deployments API
(`DeploymentStatus.state` in the spec's data model). -/
inductive DeployState
  | success
  | inactive
  | pending
  | error
  | failure
  | queued
  | in_progress
deriving DecidableEq, Repr

/-- One entry of `octokit.rest.repos.listDeploymentStatuses(...).data`. -/
structure DeploymentStatus where
  state : DeployState
  target_url : Option String
deriving DecidableEq, Repr

/-- The `WaitForStatusOptions` interface from `action.ts`. -/
structure WaitForStatusOptions where
  token : String
  owner : String
  repo : String
  deployment_id : Nat
  maxTimeout : ℚ
  allowInactive : Bool
  checkIntervalInMilliseconds : ℚ

/-- One iteration of the `waitForStatus` loop body.  The argument is the outcome of
`octokit.rest.repos.listDeploymentStatuses`: `Except.error` when the request throws,
`Except.ok data` when it returns the status list.  Returns `some status` when the
iteration `return`s, `none` when it throws a `StatusError` (caught, logged, retried). -/
def statusAttempt (allowInactive : Bool)
    (res : Except Unit (List DeploymentStatus)) : Option DeploymentStatus :=
  match res with
  | .error _ => none
  | .ok data =>
    match data.head? with
    | none => none
    | some status =>
      if allowInactive = true ∧ status.state = DeployState.inactive then some status
      else if status.state ≠ DeployState.success then none
      else some status

/-- `waitForStatus` from `action.ts`: poll the deployment-status list until the
newest status is terminal-positive; `none` models the `core.setFailed` Timeout
after the budget is exhausted.  `polls i` is what the octokit call observes on
attempt `i`. -/
def waitForStatus (o : WaitForStatusOptions)
    (polls : Nat → Except Unit (List DeploymentStatus)) : Option DeploymentStatus :=
  retryLoop (fun i => statusAttempt o.allowInactive (polls i)) 0
    (calculateIterations o.maxTimeout o.checkIntervalInMilliseconds).toNat

/-- One entry of `octokit.rest.repos.listDeployments(...).data`; `creatorLogin`
models `deployment.creator?.login` (`none` when `creator` is absent). -/
structure Deployment where
  id : Nat
  creatorLogin : Option String
deriving DecidableEq, Repr

/-- The `WaitForDeploymentToStartOptions` interface from `action.ts`, with the
source's default values for the optional fields. -/
structure WaitForDeploymentToStartOptions where
  owner : String
  repo : String
  sha : String
  environment : Option String := none
  actorName : String := "vercel[bot]"
  maxTimeout : ℚ := 20
  checkIntervalInMilliseconds : ℚ := 2000

/-- One iteration of the `waitForDeploymentToStart` loop body: on a delivered list,
`deployments.data.length > 0 && deployments.data.find(d => d.creator?.login === actorName)`;
a thrown request error gives `none` (caught, logged, retried). -/
def deploymentAttempt (actorName : String)
    (res : Except Unit (List Deployment)) : Option Deployment :=
  match res with
  | .error _ => none
  | .ok data =>
    if data.length > 0 then
      data.find? (fun d => decide (d.creatorLogin = some actorName))
    else none

/-- `waitForDeploymentToStart` from `action.ts`: poll the deployment list until an
entry by `actorName` appears; returns `null` (here `none`) once the budget is
exhausted. -/
def waitForDeploymentToStart (o : WaitForDeploymentToStartOptions)
    (polls : Nat → Except Unit (List Deployment)) : Option Deployment :=
  retryLoop (fun i => deploymentAttempt o.actorName (polls i)) 0
    (calculateIterations o.maxTimeout o.checkIntervalInMilliseconds).toNat

/-- A parsed `Set-Cookie` entry, as produced by the `set-cookie-parser` dependency. -/
structure Cookie where
  name : String
  value : String
deriving DecidableEq, Repr

/-- Split a character list at every occurrence of `sep` (the list-level analogue of
`String.split`); always returns at least one group. -/
def splitListOn (sep : Char) : List Char → List (List Char)
  | [] => [[]]
  | c :: cs =>
    let r := splitListOn sep cs
    if c = sep then [] :: r
    else
      match r with
      | [] => [[c]]
      | g :: gs => (c :: g) :: gs

/-- Join character-list groups with `sep` between them (the list-level analogue of
`String.intercalate`). -/
def joinWithChar (sep : Char) : List (List Char) → List Char
  | [] => []
  | [g] => g
  | g :: gs => g ++ sep :: joinWithChar sep gs

/-- Strip leading and trailing whitespace (the list-level analogue of
`String.trim`). -/
def trimChars (l : List Char) : List Char :=
  ((l.dropWhile Char.isWhitespace).reverse.dropWhile Char.isWhitespace).reverse

/-- Parsing of one `Set-Cookie` header string by the `set-cookie-parser` dependency
(external to the repository): the part before the first `;` is the
`name=value` pair, the name is trimmed, the value is everything after the first
`=`.  (Percent-decoding of the value is not modelled; no property here uses it.) -/
def parseSetCookieHeader (s : String) : Cookie :=
  let pair := (splitListOn ';' s.data).headD []
  match splitListOn '=' pair with
  | [] => { name := "", value := "" }
  | name :: rest =>
    { name := String.mk (trimChars name)
      value := String.mk (joinWithChar '=' rest) }

/-- `parse` of `set-cookie-parser` over the list of `Set-Cookie` header strings. -/
def parseCookies (hdrs : List String) : List Cookie :=
  hdrs.map parseSetCookieHeader

/-- The HTTP response observed by the password-exchange POST in `getPassword`:
its status and its `set-cookie` header (a list of header strings, absent when the
response carries none). -/
structure PwResponse where
  status : Nat
  setCookie : Option (List String)
deriving DecidableEq, Repr

/-- The `validateStatus` predicate of the axios request in `getPassword`:
`(status) => status >= 200 && status < 307`. -/
def getPasswordValidateStatus (status : Nat) : Bool :=
  decide (200 ≤ status) && decide (status < 307)

/-- The request configuration `getPassword` passes to axios: a form-encoded POST of
`_vercel_password` to the base URL with redirects disabled.  `params` models the
`URLSearchParams` the body is serialised from. -/
structure PwRequest where
  url : String
  method : String
  params : List (String × String)
  contentType : String
  maxRedirects : Nat
deriving DecidableEq, Repr

/-- The axios call configuration built in `getPassword` (lines 132–147 of
`action.ts`). -/
def getPasswordRequest (url vercelPassword : String) : PwRequest :=
  { url := url
    method := "post"
    params := [("_vercel_password", vercelPassword)]
    contentType := "application/x-www-form-urlencoded"
    maxRedirects := 0 }

/-- `getPassword` from `action.ts`, applied to the outcome of its axios POST
(`Except.error` = transport failure; `Except.ok` = a delivered response, which
axios rejects — throws — unless `validateStatus` accepts its status).  On an
accepted response the `set-cookie` header is parsed and the `_vercel_jwt` cookie
extracted; a missing header, missing cookie or empty value throws
`Error('no vercel JWT in response')`. -/
def getPassword (response : Except Unit PwResponse) : Except String String :=
  match response with
  | .error _ => .error "axios request failed"
  | .ok r =>
    if getPasswordValidateStatus r.status = false then .error "axios request failed"
    else
      match r.setCookie with
      | none => .error "no vercel JWT in response"
      | some hdrs =>
        match (parseCookies hdrs).find? (fun c => decide (c.name = "_vercel_jwt")) with
        | none => .error "no vercel JWT in response"
        | some c =>
          if c.value = "" then .error "no vercel JWT in response"
          else .ok c.value

/-- The headers record built per attempt in `waitForUrl`: it holds a `Cookie`
header and/or an `x-vercel-protection-bypass` header. -/
structure Headers where
  cookie : Option String
  bypass : Option String
deriving DecidableEq, Repr

/-- Outcome of the health-check `axios.get`: `ok status` — axios resolves (any
non-error response, whatever its status); `errStatus` — axios throws with
`e.response` set; `errNoResponse` — axios throws with only `e.request` set. -/
inductive GetOutcome
  | ok (status : Nat)
  | errStatus (status : Nat)
  | errNoResponse
deriving DecidableEq, Repr

/-- The network environment of one `waitForUrl` run: per attempt index, the outcome
of the password-exchange POST and of the health-check GET. -/
structure UrlEnv where
  pw : Nat → Except Unit PwResponse
  get : Nat → GetOutcome

/-- Observable trace of one iteration of the `waitForUrl` loop body. -/
structure AttemptOutcome where
  success : Bool
  gets : List Headers
  pwExchanges : Nat
  jwtOutputs : List String
deriving DecidableEq, Repr

/-- Observable result of a `waitForUrl` run: whether it returned successfully,
how many loop iterations ran, the headers of each GET actually performed, how many
password-exchange POSTs were issued, and the values `core.setOutput('vercel_jwt', …)`
was called with. -/
structure UrlRunResult where
  success : Bool
  attempts : Nat
  gets : List Headers
  pwExchanges : Nat
  jwtOutputs : List String
deriving DecidableEq, Repr

/-- The `if (protectionBypassHeader) headers = { 'x-vercel-protection-bypass': … }`
step of `waitForUrl`: when a bypass header is configured it replaces the whole
headers record (dropping any `Cookie` header). -/
def applyProtectionBypass (protectionBypassHeader : Option String) (h : Headers) : Headers :=
  match protectionBypassHeader with
  | some b => { cookie := none, bypass := some b }
  | none => h

/-- One iteration of the `waitForUrl` loop body (lines 72–117 of `action.ts`).
With a password configured the iteration first performs the password exchange
(counted in `pwExchanges`); if that throws, the exception is caught by the
iteration's own `catch` and no GET happens.  On a JWT, `Cookie: _vercel_jwt=<jwt>`
is set and the JWT is written to the `vercel_jwt` output; a configured bypass
header then replaces the headers.  Finally the GET is performed; the iteration
succeeds exactly when it resolves. -/
def urlAttempt (vercelPassword protectionBypassHeader : Option String)
    (env : UrlEnv) (i : Nat) : AttemptOutcome :=
  match vercelPassword with
  | none =>
    let headers := applyProtectionBypass protectionBypassHeader
      { cookie := none, bypass := none }
    match env.get i with
    | .ok _ => { success := true, gets := [headers], pwExchanges := 0, jwtOutputs := [] }
    | _ => { success := false, gets := [headers], pwExchanges := 0, jwtOutputs := [] }
  | some _ =>
    match getPassword (env.pw i) with
    | .error _ => { success := false, gets := [], pwExchanges := 1, jwtOutputs := [] }
    | .ok jwt =>
      let headers := applyProtectionBypass protectionBypassHeader
        { cookie := some ("_vercel_jwt=" ++ jwt), bypass := none }
      match env.get i with
      | .ok _ =>
        { success := true, gets := [headers], pwExchanges := 1, jwtOutputs := [jwt] }
      | _ =>
        { success := false, gets := [headers], pwExchanges := 1, jwtOutputs := [jwt] }

/-- The `waitForUrl` retry loop: run iterations at indices `i, i+1, …` while the
budget lasts, stopping at the first successful one; on exhaustion the result has
`success := false` (the `core.setFailed` Timeout).  The trace fields accumulate
over the iterations that actually ran. -/
def waitForUrlLoop (vercelPassword protectionBypassHeader : Option String)
    (env : UrlEnv) : Nat → Nat → UrlRunResult
  | _, 0 =>
    { success := false, attempts := 0, gets := [], pwExchanges := 0, jwtOutputs := [] }
  | i, n + 1 =>
    let a := urlAttempt vercelPassword protectionBypassHeader env i
    if a.success then
      { success := true, attempts := 1, gets := a.gets,
        pwExchanges := a.pwExchanges, jwtOutputs := a.jwtOutputs }
    else
      let r := waitForUrlLoop vercelPassword protectionBypassHeader env (i + 1) n
      { success := r.success, attempts := 1 + r.attempts, gets := a.gets ++ r.gets,
        pwExchanges := a.pwExchanges + r.pwExchanges,
        jwtOutputs := a.jwtOutputs ++ r.jwtOutputs }

/-- The `WaitForUrlOptions` interface from `action.ts`.  The optional string
inputs are `none` when the corresponding JavaScript value is falsy (absent or
empty). -/
structure WaitForUrlOptions where
  url : String
  maxTimeout : ℚ
  checkIntervalInMilliseconds : ℚ
  vercelPassword : Option String := none
  protectionBypassHeader : Option String := none
  path : String

/-- `waitForUrl` from `action.ts`. -/
def waitForUrl (o : WaitForUrlOptions) (env : UrlEnv) : UrlRunResult :=
  waitForUrlLoop o.vercelPassword o.protectionBypassHeader env 0
    (calculateIterations o.maxTimeout o.checkIntervalInMilliseconds).toNat

/-- The ambient `github.context` values `run` and `getShaForPullRequest` read:
repository coordinates, `payload.pull_request?.number` (`none` when the payload has
no pull request) and `github.context.sha` (`none` when falsy). -/
structure GithubContextModel where
  owner : String
  repo : String
  payloadPullRequest : Option Nat
  contextSha : Option String

/-- The response of `octokit.rest.pulls.get`. -/
structure PullsGetResponse where
  status : Nat
  headSha : String
deriving DecidableEq, Repr

/-- `getShaForPullRequest` from `action.ts`.  `pullsGet` is the
`octokit.rest.pulls.get` collaborator (throwing = `Except.error`, propagated to the
caller's catch).  Note the lookup uses `github.context.payload.pull_request?.number`,
not the `number` argument.  `Except.ok none` models returning `undefined` after
`core.setFailed`; `Except.ok (some sha)` is a resolved head SHA. -/
def getShaForPullRequest (ctx : GithubContextModel)
    (pullsGet : Nat → Except Unit PullsGetResponse)
    (owner repo : String) (number : Nat) : Except Unit (Option String) :=
  match ctx.payloadPullRequest with
  | none => .ok none
  | some prNumber =>
    if prNumber = 0 then .ok none
    else
      match pullsGet prNumber with
      | .error e => .error e
      | .ok currentPR =>
        if currentPR.status ≠ 200 then .ok none
        else .ok (some currentPR.headSha)

/-- The successive stages of `run` that involve a collaborator, in the order the
source executes them. -/
inductive Phase
  | shaPhase
  | startPhase
  | statusPhase
  | urlPhase
deriving DecidableEq, Repr

/-- The action inputs `run` reads via `core.getInput`/`core.getBooleanInput`.
String inputs are `""` when not provided; the numeric inputs carry the value of
`Number(...)` applied to the raw string (with `0` also standing for `NaN`, which
`||` treats identically). -/
structure RunInputs where
  token : String
  vercel_password : String
  vercel_protection_bypass_header : String
  environment : String
  max_timeout : ℚ
  allow_inactive : Bool
  path : String
  check_interval : ℚ

/-- The collaborators of one `run`: the workflow context and the network
environments of the successive stages. -/
structure RunEnv where
  ctx : GithubContextModel
  pullsGet : Nat → Except Unit PullsGetResponse
  deployPolls : Nat → Except Unit (List Deployment)
  statusPolls : Nat → Except Unit (List DeploymentStatus)
  urlEnv : UrlEnv

/-- Observable result of `run`: which stages executed (in order), the failure
message (if `core.setFailed` ended the run), the `url` output, and the URL
waiter's trace when it ran. -/
structure RunResult where
  phases : List Phase
  failure : Option String
  urlOutput : Option String
  urlRun : Option UrlRunResult

/-- JavaScript truthiness of a string input: `""` is falsy. -/
def strToOption (s : String) : Option String :=
  if s = "" then none else some s

/-- The tail of `run` after a commit SHA has been resolved: DeploymentStartWaiter,
then DeploymentStatusWaiter, then (inside `waitForUrl`) the optional password
exchange and the health-check loop.  `ph` is the phase trace accumulated so far. -/
def runAfterSha (I : RunInputs) (env : RunEnv) (ph : List Phase) (sha : String) :
    RunResult :=
  let MAX_TIMEOUT : ℚ := if I.max_timeout = 0 then 60 else I.max_timeout
  let CHECK_INTERVAL_IN_MS : ℚ :=
    (if I.check_interval = 0 then 2 else I.check_interval) * 1000
  let PATH : String := if I.path = "" then "/" else I.path
  match waitForDeploymentToStart
      { owner := env.ctx.owner, repo := env.ctx.repo, sha := sha,
        environment := strToOption I.environment, actorName := "vercel[bot]",
        maxTimeout := MAX_TIMEOUT,
        checkIntervalInMilliseconds := CHECK_INTERVAL_IN_MS }
      env.deployPolls with
  | none =>
    { phases := ph ++ [Phase.startPhase],
      failure := some "no vercel deployment found, exiting...",
      urlOutput := none, urlRun := none }
  | some deployment =>
    let status := waitForStatus
      { token := I.token, owner := env.ctx.owner, repo := env.ctx.repo,
        deployment_id := deployment.id, maxTimeout := MAX_TIMEOUT,
        allowInactive := I.allow_inactive,
        checkIntervalInMilliseconds := CHECK_INTERVAL_IN_MS }
      env.statusPolls
    match status.bind (fun s => s.target_url) with
    | none =>
      { phases := ph ++ [Phase.startPhase, Phase.statusPhase],
        failure := some "no target_url found in the status check",
        urlOutput := none, urlRun := none }
    | some targetUrl =>
      let r := waitForUrl
        { url := targetUrl, maxTimeout := MAX_TIMEOUT,
          checkIntervalInMilliseconds := CHECK_INTERVAL_IN_MS,
          vercelPassword := strToOption I.vercel_password,
          protectionBypassHeader := strToOption I.vercel_protection_bypass_header,
          path := PATH }
        env.urlEnv
      { phases := ph ++ [Phase.startPhase, Phase.statusPhase, Phase.urlPhase],
        failure := if r.success then none
          else some ("Timeout reached: Unable to connect to " ++ targetUrl),
        urlOutput := some targetUrl, urlRun := some r }

/-- `run` from `action.ts`: read inputs, resolve the commit SHA (through
`getShaForPullRequest` when the payload carries a pull request, else
`github.context.sha`), then hand over to the sequenced waiters. -/
def run (I : RunInputs) (env : RunEnv) : RunResult :=
  if I.token = "" then
    { phases := [], failure := some "Required field `token` was not provided",
      urlOutput := none, urlRun := none }
  else
    match env.ctx.payloadPullRequest with
    | some n =>
      match getShaForPullRequest env.ctx env.pullsGet env.ctx.owner env.ctx.repo n with
      | .error _ =>
        { phases := [Phase.shaPhase], failure := some "request error",
          urlOutput := none, urlRun := none }
      | .ok none =>
        { phases := [Phase.shaPhase],
          failure := some "Unable to determine SHA. Exiting...",
          urlOutput := none, urlRun := none }
      | .ok (some sha) => runAfterSha I env [Phase.shaPhase] sha
    | none =>
      match env.ctx.contextSha with
      | none =>
        { phases := [], failure := some "Unable to determine SHA. Exiting...",
          urlOutput := none, urlRun := none }
      | some sha => runAfterSha I env [] sha

/-- Status-waiter options with the given timeout, poll interval and
`allow_inactive` flag. -/
def mkStatusOpts (m ci : ℚ) (a : Bool) : WaitForStatusOptions :=
  { token := "t", owner := "octo", repo := "repo", deployment_id := 1,
    maxTimeout := m, allowInactive := a, checkIntervalInMilliseconds := ci }

/-- Poll sequence whose newest statuses are `queued`, then `in_progress`, then
`success` from the third attempt on. -/
def pollsQIS : Nat → Except Unit (List DeploymentStatus) := fun k =>
  if k = 0 then .ok [{ state := DeployState.queued, target_url := none }]
  else if k = 1 then .ok [{ state := DeployState.in_progress, target_url := none }]
  else .ok [{ state := DeployState.success, target_url := some "https://example.com" }]

/-- Poll sequence whose newest status is always `inactive`. -/
def pollsInactive : Nat → Except Unit (List DeploymentStatus) := fun _ =>
  .ok [{ state := DeployState.inactive, target_url := none }]

/-- Start-waiter options relying on the source's defaults
(`actorName = "vercel[bot]"`, `maxTimeout = 20`, interval `2000`). -/
def startOptsEx : WaitForDeploymentToStartOptions :=
  { owner := "octo", repo := "repo", sha := "abc" }

/-- Deployment polls: the first request throws; afterwards the list holds
deployments by several creators, two of them by `vercel[bot]`. -/
def deployPollsEx : Nat → Except Unit (List Deployment) := fun k =>
  if k = 0 then .error ()
  else .ok [{ id := 1, creatorLogin := some "alice" },
            { id := 2, creatorLogin := some "vercel[bot]" },
            { id := 3, creatorLogin := some "vercel[bot]" }]

/-- Deployment polls that never contain a deployment by `vercel[bot]`. -/
def deployPollsNoMatch : Nat → Except Unit (List Deployment) := fun _ =>
  .ok [{ id := 1, creatorLogin := some "alice" }, { id := 4, creatorLogin := none }]

/-- URL-waiter options with a 60 s timeout and 2000 ms interval (30 attempts). -/
def mkUrlOpts (pw bypass : Option String) : WaitForUrlOptions :=
  { url := "https://preview.example.com", maxTimeout := 60,
    checkIntervalInMilliseconds := 2000, vercelPassword := pw,
    protectionBypassHeader := bypass, path := "/" }

/-- URL environment whose first password exchange returns no `Set-Cookie` header
and whose later exchanges return the JWT cookie; every GET resolves. -/
def c3Env : UrlEnv :=
  { pw := fun k =>
      if k = 0 then .ok { status := 303, setCookie := none }
      else .ok { status := 303, setCookie := some ["_vercel_jwt=tok123; Path=/; HttpOnly"] },
    get := fun _ => .ok 200 }

/-- URL environment in which every password exchange returns no `Set-Cookie`
header. -/
def c3FailEnv : UrlEnv :=
  { pw := fun _ => .ok { status := 303, setCookie := none },
    get := fun _ => .ok 200 }

/-- URL environment in which every password exchange succeeds with the JWT
`tok456`, the first GET returns HTTP 500 and the second resolves. -/
def c4Env : UrlEnv :=
  { pw := fun _ => .ok { status := 303, setCookie := some ["_vercel_jwt=tok456"] },
    get := fun k => if k = 0 then .errStatus 500 else .ok 200 }

/-- URL environment with no usable password exchange whose GETs return HTTP 500,
then HTTP 200, then transport failures. -/
def c6Env : UrlEnv :=
  { pw := fun _ => .error (),
    get := fun k =>
      if k = 0 then .errStatus 500
      else if k = 1 then .ok 200
      else .errNoResponse }

/-- Example action inputs for a `run` on a push (no pull request payload). -/
def runInputsEx : RunInputs :=
  { token := "t", vercel_password := "", vercel_protection_bypass_header := "",
    environment := "", max_timeout := 60, allow_inactive := false,
    path := "", check_interval := 2 }

/-- Example collaborators for a `run`: one deployment by `vercel[bot]`, a
successful status with a target URL, and a healthy endpoint. -/
def runEnvEx : RunEnv :=
  { ctx := { owner := "octo", repo := "repo", payloadPullRequest := none,
             contextSha := some "abc" },
    pullsGet := fun _ => .ok { status := 200, headSha := "abc" },
    deployPolls := fun _ => .ok [{ id := 7, creatorLogin := some "vercel[bot]" }],
    statusPolls := fun _ =>
      .ok [{ state := DeployState.success, target_url := some "https://preview.example.com" }],
    urlEnv := { pw := fun _ => .error (), get := fun _ => .ok 200 } }

deriving instance DecidableEq for Except

/-! ## Helper lemmas -/

theorem calcToNat_60_2000 : (calculateIterations 60 2000).toNat = 30 := by
  have h : calculateIterations 60 2000 = 30 := by norm_num [calculateIterations]
  rw [h]; rfl

theorem calcToNat_20_2000 : (calculateIterations 20 2000).toNat = 10 := by
  have h : calculateIterations 20 2000 = 10 := by norm_num [calculateIterations]
  rw [h]; rfl

theorem calcToNat_6_2000 : (calculateIterations 6 2000).toNat = 3 := by
  have h : calculateIterations 6 2000 = 3 := by norm_num [calculateIterations]
  rw [h]; rfl

theorem calcToNat_4_2000 : (calculateIterations 4 2000).toNat = 2 := by
  have h : calculateIterations 4 2000 = 2 := by norm_num [calculateIterations]
  rw [h]; rfl

theorem retryLoop_eq_some {α : Type} (attempt : Nat → Option α) :
    ∀ (n i : Nat) (x : α), retryLoop attempt i n = some x ↔
      ∃ k, k < n ∧ attempt (i + k) = some x ∧ ∀ j, j < k → attempt (i + j) = none := by
  intro n
  induction n with
  | zero => intro i x; simp [retryLoop]
  | succ m ih =>
    intro i x
    rw [retryLoop]
    cases h : attempt i with
    | some y =>
      simp only [Option.some.injEq]
      constructor
      · rintro rfl
        exact ⟨0, Nat.succ_pos m, by simpa using h, fun j hj => absurd hj (Nat.not_lt_zero j)⟩
      · rintro ⟨k, hk, hak, hprev⟩
        cases k with
        | zero => rw [Nat.add_zero] at hak; rw [h] at hak; exact (Option.some.injEq y x).mp hak
        | succ k =>
          have h0 := hprev 0 (Nat.succ_pos k)
          rw [Nat.add_zero] at h0; rw [h] at h0
          exact absurd h0 (Option.some_ne_none y)
    | none =>
      rw [ih (i + 1) x]
      constructor
      · rintro ⟨k, hk, hak, hprev⟩
        refine ⟨k + 1, Nat.succ_lt_succ hk, ?_, ?_⟩
        · rw [show i + (k + 1) = i + 1 + k by omega]; exact hak
        · intro j hj
          cases j with
          | zero => rw [Nat.add_zero]; exact h
          | succ j =>
            have := hprev j (Nat.lt_of_succ_lt_succ hj)
            rw [show i + (j + 1) = i + 1 + j by omega]; exact this
      · rintro ⟨k, hk, hak, hprev⟩
        cases k with
        | zero =>
          rw [Nat.add_zero] at hak; rw [h] at hak
          exact absurd hak.symm (Option.some_ne_none x)
        | succ k =>
          refine ⟨k, Nat.lt_of_succ_lt_succ hk, ?_, ?_⟩
          · rw [show i + 1 + k = i + (k + 1) by omega]; exact hak
          · intro j hj
            have := hprev (j + 1) (Nat.succ_lt_succ hj)
            rw [show i + 1 + j = i + (j + 1) by omega]; exact this

theorem retryLoop_eq_none {α : Type} (attempt : Nat → Option α) :
    ∀ (n i : Nat), retryLoop attempt i n = none ↔
      ∀ k, k < n → attempt (i + k) = none := by
  intro n
  induction n with
  | zero => intro i; simp [retryLoop]
  | succ m ih =>
    intro i
    rw [retryLoop]
    cases h : attempt i with
    | some y =>
      constructor
      · intro hc; exact absurd hc (Option.some_ne_none y)
      · intro hall
        have := hall 0 (Nat.succ_pos m)
        rw [Nat.add_zero] at this; rw [h] at this
        exact absurd this (Option.some_ne_none y)
    | none =>
      rw [ih (i + 1)]
      constructor
      · intro hall k hk
        cases k with
        | zero => rw [Nat.add_zero]; exact h
        | succ k =>
          have := hall k (Nat.lt_of_succ_lt_succ hk)
          rw [show i + (k + 1) = i + 1 + k by omega]; exact this
      · intro hall k hk
        have := hall (k + 1) (Nat.succ_lt_succ hk)
        rw [show i + 1 + k = i + (k + 1) by omega]; exact this

theorem find?_eq_some_decomp {α : Type} (p : α → Bool) :
    ∀ (l : List α) (a : α), l.find? p = some a ↔
      ∃ l₁ l₂, l = l₁ ++ a :: l₂ ∧ p a = true ∧ ∀ x ∈ l₁, p x = false := by
  intro l
  induction l with
  | nil =>
    intro a
    constructor
    · intro h; exact absurd h (by simp)
    · rintro ⟨l₁, l₂, heq, -, -⟩; exact absurd heq (by simp)
  | cons x xs ih =>
    intro a
    cases hpx : p x with
    | true =>
      rw [List.find?_cons_of_pos _ hpx]
      constructor
      · intro h
        obtain rfl := Option.some.inj h
        exact ⟨[], xs, rfl, hpx, fun z hz => absurd hz (List.not_mem_nil z)⟩
      · rintro ⟨l₁, l₂, heq, hpa, hl₁⟩
        cases l₁ with
        | nil =>
          simp only [List.nil_append] at heq
          obtain ⟨rfl, rfl⟩ := List.cons.inj heq
          rfl
        | cons y ys =>
          simp only [List.cons_append] at heq
          obtain ⟨rfl, -⟩ := List.cons.inj heq
          have := hl₁ x (by simp)
          rw [hpx] at this
          cases this
    | false =>
      rw [List.find?_cons_of_neg _ (by simp [hpx]), ih]
      constructor
      · rintro ⟨l₁, l₂, heq, hpa, hl₁⟩
        refine ⟨x :: l₁, l₂, by rw [heq, List.cons_append], hpa, ?_⟩
        intro z hz
        rcases List.mem_cons.mp hz with rfl | hz2
        · exact hpx
        · exact hl₁ z hz2
      · rintro ⟨l₁, l₂, heq, hpa, hl₁⟩
        cases l₁ with
        | nil =>
          simp only [List.nil_append] at heq
          obtain ⟨rfl, -⟩ := List.cons.inj heq
          rw [hpx] at hpa; cases hpa
        | cons y ys =>
          simp only [List.cons_append] at heq
          obtain ⟨rfl, heq2⟩ := List.cons.inj heq
          exact ⟨ys, l₂, heq2, hpa, fun z hz => hl₁ z (List.mem_cons_of_mem _ hz)⟩

theorem statusEvalN (m ci : ℚ) (a : Bool)
    (polls : Nat → Except Unit (List DeploymentStatus)) (n : Nat)
    (h : (calculateIterations m ci).toNat = n) :
    waitForStatus (mkStatusOpts m ci a) polls =
      retryLoop (fun i => statusAttempt a (polls i)) 0 n := by
  simp only [waitForStatus, mkStatusOpts, h]

theorem startEval (polls : Nat → Except Unit (List Deployment)) :
    waitForDeploymentToStart startOptsEx polls =
      retryLoop (fun i => deploymentAttempt "vercel[bot]" (polls i)) 0 10 := by
  simp only [waitForDeploymentToStart, startOptsEx, calcToNat_20_2000]

theorem urlEval (pw bypass : Option String) (env : UrlEnv) :
    waitForUrl (mkUrlOpts pw bypass) env = waitForUrlLoop pw bypass env 0 30 := by
  simp only [waitForUrl, mkUrlOpts, calcToNat_60_2000]

theorem waitForUrlLoop_step (pw bypass : Option String) (env : UrlEnv) (i m : Nat) :
    waitForUrlLoop pw bypass env i (m + 1) =
      if (urlAttempt pw bypass env i).success then
        { success := true, attempts := 1,
          gets := (urlAttempt pw bypass env i).gets,
          pwExchanges := (urlAttempt pw bypass env i).pwExchanges,
          jwtOutputs := (urlAttempt pw bypass env i).jwtOutputs }
      else
        { success := (waitForUrlLoop pw bypass env (i + 1) m).success,
          attempts := 1 + (waitForUrlLoop pw bypass env (i + 1) m).attempts,
          gets := (urlAttempt pw bypass env i).gets ++
            (waitForUrlLoop pw bypass env (i + 1) m).gets,
          pwExchanges := (urlAttempt pw bypass env i).pwExchanges +
            (waitForUrlLoop pw bypass env (i + 1) m).pwExchanges,
          jwtOutputs := (urlAttempt pw bypass env i).jwtOutputs ++
            (waitForUrlLoop pw bypass env (i + 1) m).jwtOutputs } := rfl

theorem urlAttempt_noauth_success (env : UrlEnv) (i : Nat) :
    (urlAttempt none none env i).success = true ↔ ∃ c, env.get i = GetOutcome.ok c := by
  cases h : env.get i <;> simp [urlAttempt, h, applyProtectionBypass]

theorem urlAttempt_pw_pwExchanges (p : String) (bypass : Option String) (env : UrlEnv)
    (i : Nat) : (urlAttempt (some p) bypass env i).pwExchanges = 1 := by
  cases h : getPassword (env.pw i) with
  | error e => simp [urlAttempt, h]
  | ok jwt => cases h2 : env.get i <;> simp [urlAttempt, h, h2]

theorem urlAttempt_pw_gets (p : String) (bypass : Option String) (env : UrlEnv) (i : Nat) :
    (urlAttempt (some p) bypass env i).gets =
      match getPassword (env.pw i) with
      | .error _ => []
      | .ok jwt =>
        [applyProtectionBypass bypass
          { cookie := some ("_vercel_jwt=" ++ jwt), bypass := none }] := by
  cases h : getPassword (env.pw i) with
  | error e => simp [urlAttempt, h]
  | ok jwt => cases h2 : env.get i <;> simp [urlAttempt, h, h2]

theorem urlAttempt_pw_jwtOutputs (p : String) (bypass : Option String) (env : UrlEnv)
    (i : Nat) :
    (urlAttempt (some p) bypass env i).jwtOutputs =
      match getPassword (env.pw i) with
      | .error _ => []
      | .ok jwt => [jwt] := by
  cases h : getPassword (env.pw i) with
  | error e => simp [urlAttempt, h]
  | ok jwt => cases h2 : env.get i <;> simp [urlAttempt, h, h2]

theorem waitForUrlLoop_success_iff (pw bypass : Option String) (env : UrlEnv) :
    ∀ (n i : Nat), (waitForUrlLoop pw bypass env i n).success = true ↔
      ∃ k, k < n ∧ (urlAttempt pw bypass env (i + k)).success = true ∧
        ∀ j, j < k → (urlAttempt pw bypass env (i + j)).success = false := by
  intro n
  induction n with
  | zero => intro i; simp [waitForUrlLoop]
  | succ m ih =>
    intro i
    rw [waitForUrlLoop_step]
    by_cases h : (urlAttempt pw bypass env i).success = true
    · rw [if_pos h]
      dsimp only
      constructor
      · intro _
        exact ⟨0, Nat.succ_pos m, by simpa using h,
          fun j hj => absurd hj (Nat.not_lt_zero j)⟩
      · intro _; rfl
    · rw [if_neg h]
      dsimp only
      rw [ih (i + 1)]
      have hfalse : (urlAttempt pw bypass env i).success = false :=
        Bool.eq_false_iff.mpr h
      constructor
      · rintro ⟨k, hk, hak, hprev⟩
        refine ⟨k + 1, Nat.succ_lt_succ hk, ?_, ?_⟩
        · rw [show i + (k + 1) = i + 1 + k by omega]; exact hak
        · intro j hj
          cases j with
          | zero => rw [Nat.add_zero]; exact hfalse
          | succ j =>
            have := hprev j (Nat.lt_of_succ_lt_succ hj)
            rw [show i + (j + 1) = i + 1 + j by omega]; exact this
      · rintro ⟨k, hk, hak, hprev⟩
        cases k with
        | zero =>
          rw [Nat.add_zero] at hak
          exact absurd hak h
        | succ k =>
          refine ⟨k, Nat.lt_of_succ_lt_succ hk, ?_, ?_⟩
          · rw [show i + 1 + k = i + (k + 1) by omega]; exact hak
          · intro j hj
            have := hprev (j + 1) (Nat.succ_lt_succ hj)
            rw [show i + 1 + j = i + (j + 1) by omega]; exact this

theorem waitForUrlLoop_failure_iff (pw bypass : Option String) (env : UrlEnv) :
    ∀ (n i : Nat), (waitForUrlLoop pw bypass env i n).success = false ↔
      ∀ k, k < n → (urlAttempt pw bypass env (i + k)).success = false := by
  intro n
  induction n with
  | zero => intro i; simp [waitForUrlLoop]
  | succ m ih =>
    intro i
    rw [waitForUrlLoop_step]
    by_cases h : (urlAttempt pw bypass env i).success = true
    · rw [if_pos h]
      dsimp only
      constructor
      · intro hc; cases hc
      · intro hall
        have := hall 0 (Nat.succ_pos m)
        rw [Nat.add_zero] at this
        rw [h] at this
        cases this
    · rw [if_neg h]
      dsimp only
      rw [ih (i + 1)]
      have hfalse : (urlAttempt pw bypass env i).success = false :=
        Bool.eq_false_iff.mpr h
      constructor
      · intro hall k hk
        cases k with
        | zero => rw [Nat.add_zero]; exact hfalse
        | succ k =>
          have := hall k (Nat.lt_of_succ_lt_succ hk)
          rw [show i + (k + 1) = i + 1 + k by omega]; exact this
      · intro hall k hk
        have := hall (k + 1) (Nat.succ_lt_succ hk)
        rw [show i + 1 + k = i + (k + 1) by omega]; exact this

theorem waitForUrlLoop_pw_count (p : String) (bypass : Option String) (env : UrlEnv) :
    ∀ (n i : Nat), (waitForUrlLoop (some p) bypass env i n).pwExchanges =
      (waitForUrlLoop (some p) bypass env i n).attempts := by
  intro n
  induction n with
  | zero => intro i; rfl
  | succ m ih =>
    intro i
    rw [waitForUrlLoop_step]
    by_cases h : (urlAttempt (some p) bypass env i).success = true
    · rw [if_pos h]
      dsimp only
      exact urlAttempt_pw_pwExchanges p bypass env i
    · rw [if_neg h]
      dsimp only
      rw [urlAttempt_pw_pwExchanges p bypass env i, ih (i + 1)]

theorem waitForUrlLoop_bypass_gets (p b : String) (env : UrlEnv) :
    ∀ (n i : Nat) (h : Headers),
      h ∈ (waitForUrlLoop (some p) (some b) env i n).gets →
        h = { cookie := none, bypass := some b } := by
  intro n
  induction n with
  | zero => intro i h hmem; exact absurd hmem (List.not_mem_nil h)
  | succ m ih =>
    intro i h hmem
    have hg : (urlAttempt (some p) (some b) env i).gets = [] ∨
        (urlAttempt (some p) (some b) env i).gets =
          [{ cookie := none, bypass := some b }] := by
      rw [urlAttempt_pw_gets]
      cases hp : getPassword (env.pw i) with
      | error e => left; rfl
      | ok jwt => right; rfl
    rw [waitForUrlLoop_step] at hmem
    by_cases hs : (urlAttempt (some p) (some b) env i).success = true
    · rw [if_pos hs] at hmem
      dsimp only at hmem
      rcases hg with hg | hg <;> rw [hg] at hmem
      · exact absurd hmem (List.not_mem_nil h)
      · simpa using hmem
    · rw [if_neg hs] at hmem
      dsimp only at hmem
      rcases List.mem_append.mp hmem with h1 | h1
      · rcases hg with hg | hg <;> rw [hg] at h1
        · exact absurd h1 (List.not_mem_nil h)
        · simpa using h1
      · exact ih (i + 1) h h1

theorem runAfterSha_phases (I : RunInputs) (env : RunEnv) (ph : List Phase) (sha : String) :
    (runAfterSha I env ph sha).phases = ph ++ [Phase.startPhase] ∨
    (runAfterSha I env ph sha).phases = ph ++ [Phase.startPhase, Phase.statusPhase] ∨
    (runAfterSha I env ph sha).phases = ph ++ [Phase.startPhase, Phase.statusPhase,
      Phase.urlPhase] := by
  rw [runAfterSha]
  dsimp only
  split
  · left; rfl
  · split
    · right; left; rfl
    · right; right; rfl

theorem run_phases_mem (I : RunInputs) (env : RunEnv) :
    (run I env).phases ∈ ([[], [Phase.shaPhase],
      [Phase.startPhase], [Phase.shaPhase, Phase.startPhase],
      [Phase.startPhase, Phase.statusPhase],
      [Phase.shaPhase, Phase.startPhase, Phase.statusPhase],
      [Phase.startPhase, Phase.statusPhase, Phase.urlPhase],
      [Phase.shaPhase, Phase.startPhase, Phase.statusPhase, Phase.urlPhase]] :
      List (List Phase)) := by
  rw [run]
  split
  · simp
  · split
    · split
      · simp
      · simp
      · rename_i sha heq
        rcases runAfterSha_phases I env [Phase.shaPhase] sha with h | h | h <;>
          rw [h] <;> simp
    · split
      · simp
      · rename_i sha heq
        rcases runAfterSha_phases I env [] sha with h | h | h <;> rw [h] <;> simp

/-! ## Claim theorems -/

/-- Claim C1: for every pair `(maxTimeoutSeconds, intervalMilliseconds)`, the
retry-budget function returns `N = ⌊maxTimeoutSeconds / (intervalMilliseconds/1000)⌋`;
in particular it returns 30 for `(60, 2000)` and 0 for `(0, 2000)`. -/
theorem c1_retry_budget :
    (∀ maxTimeoutSeconds intervalMilliseconds : ℚ,
        calculateIterations maxTimeoutSeconds intervalMilliseconds =
          ⌊maxTimeoutSeconds / (intervalMilliseconds / 1000)⌋)
    ∧ calculateIterations 60 2000 = 30
    ∧ calculateIterations 0 2000 = 0 := by
  refine ⟨fun _ _ => rfl, ?_, ?_⟩ <;> norm_num [calculateIterations]

/-- Claim C2: the status waiter terminates successfully on an attempt iff the
newest (first) status of that attempt has state `success`, or state `inactive`
while `allowInactive` is true; every other observation (empty list, any other
state, a thrown fetch error) retries, and after the budget is exhausted the
waiter signals Timeout (`none`).  The poll sequence queued / in_progress /
success succeeds on the third attempt (and a two-attempt budget times out);
`inactive` with `allowInactive = false` never succeeds for any budget; `inactive`
with `allowInactive = true` succeeds immediately. -/
theorem c2_status_waiter :
    (∀ (a : Bool) (res : Except Unit (List DeploymentStatus)) (s : DeploymentStatus),
        statusAttempt a res = some s ↔
          ∃ l, res = Except.ok l ∧ l.head? = some s ∧
            (s.state = DeployState.success ∨ (a = true ∧ s.state = DeployState.inactive)))
    ∧ (∀ (o : WaitForStatusOptions) (polls : Nat → Except Unit (List DeploymentStatus))
          (s : DeploymentStatus),
        waitForStatus o polls = some s ↔
          ∃ k, k < (calculateIterations o.maxTimeout o.checkIntervalInMilliseconds).toNat ∧
            statusAttempt o.allowInactive (polls k) = some s ∧
            ∀ j, j < k → statusAttempt o.allowInactive (polls j) = none)
    ∧ (∀ (o : WaitForStatusOptions) (polls : Nat → Except Unit (List DeploymentStatus)),
        waitForStatus o polls = none ↔
          ∀ k, k < (calculateIterations o.maxTimeout o.checkIntervalInMilliseconds).toNat →
            statusAttempt o.allowInactive (polls k) = none)
    ∧ (∀ a : Bool, statusAttempt a (Except.error ()) = none)
    ∧ waitForStatus (mkStatusOpts 6 2000 false) pollsQIS =
        some { state := DeployState.success, target_url := some "https://example.com" }
    ∧ waitForStatus (mkStatusOpts 4 2000 false) pollsQIS = none
    ∧ (∀ m ci : ℚ, waitForStatus (mkStatusOpts m ci false) pollsInactive = none)
    ∧ waitForStatus (mkStatusOpts 60 2000 true) pollsInactive =
        some { state := DeployState.inactive, target_url := none } := by
  refine ⟨?_, ?_, ?_, ?_, ?_, ?_, ?_, ?_⟩
  · intro a res s
    cases res with
    | error e => simp [statusAttempt]
    | ok l =>
      cases hl : l.head? with
      | none =>
        simp only [statusAttempt, hl]
        constructor
        · intro hc; exact absurd hc (by simp)
        · rintro ⟨l2, heq, hhead, -⟩
          injection heq with heq2
          subst heq2
          rw [hl] at hhead
          exact absurd hhead (by simp)
      | some t =>
        simp only [statusAttempt, hl]
        constructor
        · intro h
          by_cases h1 : a = true ∧ t.state = DeployState.inactive
          · rw [if_pos h1] at h
            obtain rfl := Option.some.inj h
            exact ⟨l, rfl, hl, Or.inr h1⟩
          · rw [if_neg h1] at h
            by_cases h2 : t.state ≠ DeployState.success
            · rw [if_pos h2] at h
              exact absurd h (by simp)
            · rw [if_neg h2] at h
              obtain rfl := Option.some.inj h
              exact ⟨l, rfl, hl, Or.inl (not_not.mp h2)⟩
        · rintro ⟨l2, heq, hhead, hcond⟩
          injection heq with heq2
          subst heq2
          rw [hl] at hhead
          obtain rfl := Option.some.inj hhead
          rcases hcond with hsucc | ⟨ha, hinact⟩
          · simp [hsucc]
          · simp [ha, hinact]
  · intro o polls s
    rw [waitForStatus]
    have h := retryLoop_eq_some (fun i => statusAttempt o.allowInactive (polls i))
      (calculateIterations o.maxTimeout o.checkIntervalInMilliseconds).toNat 0 s
    simpa using h
  · intro o polls
    rw [waitForStatus]
    have h := retryLoop_eq_none (fun i => statusAttempt o.allowInactive (polls i))
      (calculateIterations o.maxTimeout o.checkIntervalInMilliseconds).toNat 0
    simpa using h
  · intro a; rfl
  · rw [statusEvalN 6 2000 false pollsQIS 3 calcToNat_6_2000]; decide
  · rw [statusEvalN 4 2000 false pollsQIS 2 calcToNat_4_2000]; decide
  · intro m ci
    rw [waitForStatus, retryLoop_eq_none]
    intro k hk
    rfl
  · rw [statusEvalN 60 2000 true pollsInactive 30 calcToNat_60_2000]; decide

/-- Witness for C2: a freshly `inactive` newest status with `allowInactive = true`
is a successful attempt. -/
theorem c2_status_waiter_witness :
    statusAttempt true
      (Except.ok [{ state := DeployState.inactive, target_url := none }]) =
      some { state := DeployState.inactive, target_url := none } :=
  (c2_status_waiter.1 true _ _).mpr
    ⟨[{ state := DeployState.inactive, target_url := none }], rfl, rfl,
      Or.inr ⟨rfl, rfl⟩⟩

/-- Claim C5: the start waiter returns on the first attempt whose returned list
contains an entry whose creator login equals the configured actor name, returning
the first such entry in list order; a thrown request and a list with no match are
treated identically (retry), and after the budget is exhausted it returns `null`. -/
theorem c5_start_waiter :
    (∀ (actorName : String) (l : List Deployment) (d : Deployment),
        deploymentAttempt actorName (Except.ok l) = some d ↔
          ∃ l₁ l₂, l = l₁ ++ d :: l₂ ∧ d.creatorLogin = some actorName ∧
            ∀ x ∈ l₁, x.creatorLogin ≠ some actorName)
    ∧ (∀ actorName : String, deploymentAttempt actorName (Except.error ()) = none)
    ∧ (∀ (o : WaitForDeploymentToStartOptions)
          (polls : Nat → Except Unit (List Deployment)) (d : Deployment),
        waitForDeploymentToStart o polls = some d ↔
          ∃ k, k < (calculateIterations o.maxTimeout o.checkIntervalInMilliseconds).toNat ∧
            deploymentAttempt o.actorName (polls k) = some d ∧
            ∀ j, j < k → deploymentAttempt o.actorName (polls j) = none)
    ∧ (∀ (o : WaitForDeploymentToStartOptions)
          (polls : Nat → Except Unit (List Deployment)),
        waitForDeploymentToStart o polls = none ↔
          ∀ k, k < (calculateIterations o.maxTimeout o.checkIntervalInMilliseconds).toNat →
            deploymentAttempt o.actorName (polls k) = none)
    ∧ waitForDeploymentToStart startOptsEx deployPollsEx =
        some { id := 2, creatorLogin := some "vercel[bot]" }
    ∧ waitForDeploymentToStart startOptsEx deployPollsNoMatch = none := by
  refine ⟨?_, ?_, ?_, ?_, ?_, ?_⟩
  · intro actorName l d
    cases l with
    | nil => simp [deploymentAttempt]
    | cons x xs =>
      have hlen : (x :: xs).length > 0 := Nat.succ_pos xs.length
      simp only [deploymentAttempt]
      rw [if_pos hlen, find?_eq_some_decomp]
      constructor
      · rintro ⟨l₁, l₂, a1, a2, a3⟩
        refine ⟨l₁, l₂, a1, of_decide_eq_true a2, ?_⟩
        intro z hz
        exact of_decide_eq_false (a3 z hz)
      · rintro ⟨l₁, l₂, a1, a2, a3⟩
        refine ⟨l₁, l₂, a1, decide_eq_true a2, ?_⟩
        intro z hz
        exact decide_eq_false (a3 z hz)
  · intro actorName; rfl
  · intro o polls d
    rw [waitForDeploymentToStart]
    have h := retryLoop_eq_some (fun i => deploymentAttempt o.actorName (polls i))
      (calculateIterations o.maxTimeout o.checkIntervalInMilliseconds).toNat 0 d
    simpa using h
  · intro o polls
    rw [waitForDeploymentToStart]
    have h := retryLoop_eq_none (fun i => deploymentAttempt o.actorName (polls i))
      (calculateIterations o.maxTimeout o.checkIntervalInMilliseconds).toNat 0
    simpa using h
  · rw [startEval]; decide
  · rw [startEval]; decide

/-- Witness for C5: among deployments by `alice`, `vercel[bot]`, `vercel[bot]`
(in that order), the attempt returns the first `vercel[bot]` entry. -/
theorem c5_start_waiter_witness :
    deploymentAttempt "vercel[bot]"
      (Except.ok [{ id := 1, creatorLogin := some "alice" },
                  { id := 2, creatorLogin := some "vercel[bot]" },
                  { id := 3, creatorLogin := some "vercel[bot]" }]) =
      some { id := 2, creatorLogin := some "vercel[bot]" } :=
  (c5_start_waiter.1 "vercel[bot]" _ _).mpr
    ⟨[{ id := 1, creatorLogin := some "alice" }],
      [{ id := 3, creatorLogin := some "vercel[bot]" }], rfl, rfl, by decide⟩

/-- Claim C6: the URL health waiter terminates successfully on the first attempt
whose GET resolves (any non-error response, whatever its status); an attempt that
throws is retried, and on budget exhaustion the waiter signals Timeout.  An HTTP
500 on the first attempt followed by HTTP 200 on the second succeeds on the
second attempt with no third attempt made. -/
theorem c6_url_health_waiter :
    (∀ (env : UrlEnv) (i : Nat),
        (urlAttempt none none env i).success = true ↔ ∃ c, env.get i = GetOutcome.ok c)
    ∧ (∀ (pw bypass : Option String) (env : UrlEnv) (n i : Nat),
        (waitForUrlLoop pw bypass env i n).success = true ↔
          ∃ k, k < n ∧ (urlAttempt pw bypass env (i + k)).success = true ∧
            ∀ j, j < k → (urlAttempt pw bypass env (i + j)).success = false)
    ∧ (∀ (env : UrlEnv) (n i : Nat),
        (waitForUrlLoop none none env i n).success = false ↔
          ∀ k, k < n → ∀ c, env.get (i + k) ≠ GetOutcome.ok c)
    ∧ (waitForUrl (mkUrlOpts none none) c6Env).success = true
    ∧ (waitForUrl (mkUrlOpts none none) c6Env).attempts = 2 := by
  refine ⟨urlAttempt_noauth_success,
    fun pw bypass env n i => waitForUrlLoop_success_iff pw bypass env n i, ?_, ?_, ?_⟩
  · intro env n i
    rw [waitForUrlLoop_failure_iff]
    constructor
    · intro hall k hk c hc
      have hf := hall k hk
      rw [Bool.eq_false_iff] at hf
      exact hf ((urlAttempt_noauth_success env (i + k)).mpr ⟨c, hc⟩)
    · intro hall k hk
      rw [Bool.eq_false_iff]
      intro hs
      obtain ⟨c, hc⟩ := (urlAttempt_noauth_success env (i + k)).mp hs
      exact hall k hk c hc
  · rw [urlEval]; decide
  · rw [urlEval]; decide

/-- Witness for C6: the second attempt of the 500-then-200 environment is a
successful attempt (its GET resolves with status 200). -/
theorem c6_url_health_waiter_witness :
    (urlAttempt none none c6Env 1).success = true :=
  (c6_url_health_waiter.1 c6Env 1).mpr ⟨200, rfl⟩

/-- Claim C7: the password exchange issues a form-encoded POST of the password to
the base URL without following redirects, accepts exactly the statuses in
`[200, 307)`, and returns the `_vercel_jwt` cookie value; `Set-Cookie:
_vercel_jwt=abc123` yields `abc123`, and a response without `Set-Cookie` raises
the missing-token error. -/
theorem c7_password_exchange :
    (∀ status : Nat,
        getPasswordValidateStatus status = true ↔ 200 ≤ status ∧ status < 307)
    ∧ (∀ url vercelPassword : String,
        (getPasswordRequest url vercelPassword).method = "post" ∧
        (getPasswordRequest url vercelPassword).url = url ∧
        (getPasswordRequest url vercelPassword).maxRedirects = 0 ∧
        (getPasswordRequest url vercelPassword).params =
          [("_vercel_password", vercelPassword)] ∧
        (getPasswordRequest url vercelPassword).contentType =
          "application/x-www-form-urlencoded")
    ∧ getPassword (Except.ok { status := 303, setCookie := some ["_vercel_jwt=abc123"] }) =
        Except.ok "abc123"
    ∧ getPassword (Except.ok { status := 303, setCookie := none }) =
        Except.error "no vercel JWT in response" := by
  refine ⟨?_, ?_, by decide, by decide⟩
  · intro status
    simp [getPasswordValidateStatus, Bool.and_eq_true, decide_eq_true_eq]
  · intro url vercelPassword
    exact ⟨rfl, rfl, rfl, rfl, rfl⟩

/-- Witness for C7: status 303 (the typical redirect) is accepted by the
exchange's `validateStatus`. -/
theorem c7_password_exchange_witness : getPasswordValidateStatus 303 = true :=
  (c7_password_exchange.1 303).mpr ⟨by norm_num, by norm_num⟩

/-- Claim C8: when both a password and a protection-bypass header are configured,
every health-check GET carries the `x-vercel-protection-bypass` header and no
`Cookie` header, while the password exchange is still performed on each attempt
and a successful exchange still reports its token as the `vercel_jwt` output. -/
theorem c8_bypass_precedence :
    (∀ (p b : String) (env : UrlEnv) (i : Nat),
        (urlAttempt (some p) (some b) env i).gets =
          match getPassword (env.pw i) with
          | .error _ => []
          | .ok _ => [{ cookie := none, bypass := some b }])
    ∧ (∀ (p b : String) (env : UrlEnv) (i : Nat),
        (urlAttempt (some p) (some b) env i).jwtOutputs =
          match getPassword (env.pw i) with
          | .error _ => []
          | .ok jwt => [jwt])
    ∧ (∀ (p b : String) (env : UrlEnv) (i : Nat),
        (urlAttempt (some p) (some b) env i).pwExchanges = 1)
    ∧ (∀ (p b : String) (env : UrlEnv) (n i : Nat) (h : Headers),
        h ∈ (waitForUrlLoop (some p) (some b) env i n).gets →
          h.bypass = some b ∧ h.cookie = none) := by
  refine ⟨?_, ?_, ?_, ?_⟩
  · intro p b env i
    rw [urlAttempt_pw_gets]
    cases h : getPassword (env.pw i) with
    | error e => rfl
    | ok jwt => rfl
  · intro p b env i
    exact urlAttempt_pw_jwtOutputs p (some b) env i
  · intro p b env i
    exact urlAttempt_pw_pwExchanges p (some b) env i
  · intro p b env n i h hmem
    have hh := waitForUrlLoop_bypass_gets p b env n i h hmem
    rw [hh]
    exact ⟨rfl, rfl⟩

/-- Witness for C8: in a run with password `pw` and bypass header `secret`, the
header record of the first GET carries the bypass header and no cookie. -/
theorem c8_bypass_precedence_witness :
    (Headers.mk none (some "secret")).bypass = some "secret" ∧
    (Headers.mk none (some "secret")).cookie = none :=
  c8_bypass_precedence.2.2.2 "pw" "secret" c4Env 1 0
    (Headers.mk none (some "secret")) (by decide)

/-- Counterexample to C3 as stated: a password exchange whose response carries no
`_vercel_jwt` cookie does not abort the run; the missing-cookie error is caught
inside the URL health waiter's loop and the next attempt proceeds.  Here the
first exchange returns no cookie, yet the waiter performs a second exchange and
succeeds on the second attempt. -/
theorem c3_counterexample :
    getPassword (c3Env.pw 0) = Except.error "no vercel JWT in response" ∧
    (waitForUrl (mkUrlOpts (some "pw") none) c3Env).success = true ∧
    (waitForUrl (mkUrlOpts (some "pw") none) c3Env).pwExchanges = 2 ∧
    (waitForUrl (mkUrlOpts (some "pw") none) c3Env).attempts = 2 := by
  rw [urlEval]
  exact ⟨by decide, by decide, by decide, by decide⟩

/-- Claim C3 (amended): a password exchange whose response carries no
`_vercel_jwt` cookie makes that health-check attempt fail without a GET; the
error is retried inside the URL health waiter's loop like any other failure, and
if every attempt's exchange fails the waiter consumes its whole budget (one
exchange per attempt, no GETs) and fails with the Timeout signal. -/
theorem c3_missing_cookie_retried (p : String) (bypass : Option String) (env : UrlEnv)
    (h : ∀ k, (getPassword (env.pw k)).toOption = none) :
    ∀ (n i : Nat),
      (waitForUrlLoop (some p) bypass env i n).success = false ∧
      (waitForUrlLoop (some p) bypass env i n).attempts = n ∧
      (waitForUrlLoop (some p) bypass env i n).gets = [] ∧
      (waitForUrlLoop (some p) bypass env i n).pwExchanges = n := by
  intro n
  induction n with
  | zero => intro i; exact ⟨rfl, rfl, rfl, rfl⟩
  | succ m ih =>
    intro i
    have hpw : ∃ msg, getPassword (env.pw i) = Except.error msg := by
      cases hg : getPassword (env.pw i) with
      | error msg => exact ⟨msg, rfl⟩
      | ok v =>
        have hv := h i
        rw [hg] at hv
        exact absurd hv (by simp [Except.toOption])
    obtain ⟨msg, hmsg⟩ := hpw
    have ha : urlAttempt (some p) bypass env i =
        { success := false, gets := [], pwExchanges := 1, jwtOutputs := [] } := by
      simp [urlAttempt, hmsg]
    obtain ⟨h1, h2, h3, h4⟩ := ih (i + 1)
    rw [waitForUrlLoop_step, ha]
    rw [if_neg (by simp)]
    refine ⟨?_, ?_, ?_, ?_⟩
    · simpa using h1
    · dsimp only
      rw [h2]
      omega
    · dsimp only
      rw [List.nil_append, h3]
    · dsimp only
      rw [h4]
      omega

/-- Witness for the amended C3: with every exchange missing the cookie and a
budget of three attempts, the waiter runs all three attempts (three exchanges,
no GET) and times out. -/
theorem c3_missing_cookie_retried_witness :
    (waitForUrlLoop (some "pw") none c3FailEnv 0 3).success = false ∧
    (waitForUrlLoop (some "pw") none c3FailEnv 0 3).attempts = 3 ∧
    (waitForUrlLoop (some "pw") none c3FailEnv 0 3).gets = [] ∧
    (waitForUrlLoop (some "pw") none c3FailEnv 0 3).pwExchanges = 3 := by
  have h := c3_missing_cookie_retried "pw" none c3FailEnv (fun k => rfl) 3 0
  exact h

/-- Counterexample to C4 as stated: with a password configured, the exchange is
not performed once before the health-check loop — it is re-executed inside the
loop.  Here both attempts' exchanges succeed, the first GET fails with HTTP 500,
and the run performs two password exchanges. -/
theorem c4_counterexample :
    (waitForUrl (mkUrlOpts (some "pw") none) c4Env).pwExchanges = 2 ∧
    (waitForUrl (mkUrlOpts (some "pw") none) c4Env).success = true ∧
    (waitForUrl (mkUrlOpts (some "pw") none) c4Env).attempts = 2 := by
  rw [urlEval]
  exact ⟨by decide, by decide, by decide⟩

/-- Claim C4 (amended): the run's stages execute in the fixed order commit SHA →
DeploymentStartWaiter → DeploymentStatusWaiter → URL health waiter (each stage
only after the previous one), and the password exchange is performed inside the
URL health waiter's loop: exactly one exchange per executed attempt, placed
before that attempt's GET (an attempt whose exchange fails performs no GET), so
it is re-executed on each retry rather than completing once before the loop. -/
theorem c4_exchange_in_health_loop :
    (∀ (I : RunInputs) (env : RunEnv),
        (run I env).phases ∈ ([[], [Phase.shaPhase],
          [Phase.startPhase], [Phase.shaPhase, Phase.startPhase],
          [Phase.startPhase, Phase.statusPhase],
          [Phase.shaPhase, Phase.startPhase, Phase.statusPhase],
          [Phase.startPhase, Phase.statusPhase, Phase.urlPhase],
          [Phase.shaPhase, Phase.startPhase, Phase.statusPhase, Phase.urlPhase]] :
          List (List Phase)))
    ∧ (∀ (p : String) (bypass : Option String) (env : UrlEnv) (n i : Nat),
        (waitForUrlLoop (some p) bypass env i n).pwExchanges =
          (waitForUrlLoop (some p) bypass env i n).attempts)
    ∧ (∀ (p : String) (bypass : Option String) (env : UrlEnv) (i : Nat),
        (urlAttempt (some p) bypass env i).gets =
          match getPassword (env.pw i) with
          | .error _ => []
          | .ok jwt => [applyProtectionBypass bypass
              { cookie := some ("_vercel_jwt=" ++ jwt), bypass := none }]) :=
  ⟨run_phases_mem,
    fun p bypass env n i => waitForUrlLoop_pw_count p bypass env n i,
    urlAttempt_pw_gets⟩

/-- Witness for the amended C4: the example run's phase trace is one of the
ordered stage prefixes. -/
theorem c4_exchange_in_health_loop_witness :
    (run runInputsEx runEnvEx).phases ∈ ([[], [Phase.shaPhase],
      [Phase.startPhase], [Phase.shaPhase, Phase.startPhase],
      [Phase.startPhase, Phase.statusPhase],
      [Phase.shaPhase, Phase.startPhase, Phase.statusPhase],
      [Phase.startPhase, Phase.statusPhase, Phase.urlPhase],
      [Phase.shaPhase, Phase.startPhase, Phase.statusPhase, Phase.urlPhase]] :
      List (List Phase)) :=
  c4_exchange_in_health_loop.1 runInputsEx runEnvEx

/-- Counterexample to C9 as stated: nothing constrains the configured timeout to
be nonnegative, and a negative timeout produces a negative iteration count. -/
theorem c9_counterexample :
    calculateIterations (-5) 2000 = -3 ∧ ¬(0 ≤ calculateIterations (-5) 2000) := by
  constructor <;> norm_num [calculateIterations]

/-- Claim C9 (amended): with a nonnegative timeout and a positive interval the
derived iteration count is nonnegative; and whenever the count is ≤ 0 — in
particular when it is 0 — every waiter fails immediately: the start waiter
returns `null`, the status waiter signals Timeout (both with a result that does
not depend on the network environment at all), and the URL waiter signals
Timeout having made zero attempts, zero GETs and zero password exchanges. -/
theorem c9_iterations_invariant :
    (∀ m ci : ℚ, 0 ≤ m → 0 < ci → 0 ≤ calculateIterations m ci)
    ∧ (∀ (o : WaitForStatusOptions)
          (polls polls' : Nat → Except Unit (List DeploymentStatus)),
        calculateIterations o.maxTimeout o.checkIntervalInMilliseconds ≤ 0 →
          waitForStatus o polls = none ∧ waitForStatus o polls = waitForStatus o polls')
    ∧ (∀ (o : WaitForDeploymentToStartOptions)
          (polls polls' : Nat → Except Unit (List Deployment)),
        calculateIterations o.maxTimeout o.checkIntervalInMilliseconds ≤ 0 →
          waitForDeploymentToStart o polls = none ∧
          waitForDeploymentToStart o polls = waitForDeploymentToStart o polls')
    ∧ (∀ (o : WaitForUrlOptions) (env : UrlEnv),
        calculateIterations o.maxTimeout o.checkIntervalInMilliseconds ≤ 0 →
          (waitForUrl o env).success = false ∧ (waitForUrl o env).attempts = 0 ∧
          (waitForUrl o env).gets = [] ∧ (waitForUrl o env).pwExchanges = 0 ∧
          (waitForUrl o env).jwtOutputs = []) := by
  refine ⟨?_, ?_, ?_, ?_⟩
  · intro m ci hm hci
    apply Int.floor_nonneg.mpr
    apply div_nonneg hm
    positivity
  · intro o polls polls' hle
    rw [waitForStatus, waitForStatus, Int.toNat_of_nonpos hle]
    exact ⟨rfl, rfl⟩
  · intro o polls polls' hle
    rw [waitForDeploymentToStart, waitForDeploymentToStart, Int.toNat_of_nonpos hle]
    exact ⟨rfl, rfl⟩
  · intro o env hle
    rw [waitForUrl, Int.toNat_of_nonpos hle]
    exact ⟨rfl, rfl, rfl, rfl, rfl⟩

/-- Witness for the amended C9: at `(0, 2000)` the count is 0 (hence
nonnegative) and the status waiter fails immediately. -/
theorem c9_iterations_invariant_witness :
    (0 ≤ calculateIterations 0 2000) ∧
    waitForStatus (mkStatusOpts 0 2000 false) pollsInactive = none :=
  ⟨c9_iterations_invariant.1 0 2000 le_rfl (by norm_num),
    (c9_iterations_invariant.2.1 (mkStatusOpts 0 2000 false) pollsInactive pollsInactive
      (by norm_num [mkStatusOpts, calculateIterations])).1⟩

/-- Claim C10: the pull-request SHA resolution ignores its `number` argument —
with the same ambient workflow context and API collaborator, any two calls that
differ only in `number` return the same result, because the lookup uses the
pull-request number from the global workflow context. -/
theorem c10_sha_ignores_number_argument :
    ∀ (ctx : GithubContextModel) (pullsGet : Nat → Except Unit PullsGetResponse)
      (owner repo : String) (number₁ number₂ : Nat),
      getShaForPullRequest ctx pullsGet owner repo number₁ =
        getShaForPullRequest ctx pullsGet owner repo number₂ :=
  fun _ _ _ _ _ _ => rfl
